import Mathlib

/-!
Shallow embedding of `pycorr/pair_counter.py` (pair-count configuration,
normalization, analytic randoms, rebinning).

Numeric arrays are modelled as `List ℚ` (exact rationals) for the
configuration pipeline, and as `List ℝ` where the code manipulates
irrational constants (`np.pi`, `np.logspace`).  Python exceptions are
modelled with `Except PyErr`; `PairCounterError` is the code's realization
of the spec's `ConfigurationError` taxonomy.
-/

set_option autoImplicit false

namespace Pycorr

/-- Python-level exceptions raised by the embedded code: `PairCounterError`
(the spec's `ConfigurationError`), plus the builtin `ValueError`,
`TypeError` and `IndexError` that numpy / Python raise on bad operands. -/
inductive PyErr where
  | pairCounter (msg : String)
  | valueError (msg : String)
  | typeError (msg : String)
  | indexError
  deriving DecidableEq, Repr

/-- `np.linspace(start, stop, num)`: `num` evenly spaced values, endpoint
included (`start + i * (stop - start) / (num - 1)`). -/
def np_linspace {α : Type} [Field α] (start stop : α) (num : ℕ) : List α :=
  (List.range num).map (fun i : ℕ => start + (i : α) * (stop - start) / ((num : α) - 1))

/-- `np.allclose(a, b)` for same-length 1-d arrays:
every entry satisfies `|a i - b i| <= atol + rtol * |b i|`. -/
def np_allclose {α : Type} [LinearOrderedField α] (rtol atol : α) (a b : List α) : Bool :=
  (a.zip b).all (fun p => decide (|p.1 - p.2| ≤ atol + rtol * |p.2|))

/-- `str.lower()` (ASCII lowering of each character). -/
def pyLower (s : String) : String :=
  String.mk (s.data.map Char.toLower)

def allowed_bin_types : List String := ["lin", "custom", "auto"]

/-- `BaseTwoPointCounterEngine._set_bin_type` (pair_counter.py lines 145-153).
With bin type `auto` the first-dimension edges are compared by `np.allclose`
(`rtol = 1e-5`, `atol = 1e-8`) against
`np.linspace(edges[0], edges[-1], len(edges))`; if they match, the stored
bin type becomes `lin`, and otherwise it is left as `auto` — the code has no
`else` branch, so it never becomes `custom` here.  On empty edges Python's
`edges[0]` raises `IndexError`. -/
def set_bin_type {α : Type} [LinearOrderedField α] (bin_type : String) (edges0 : List α) :
    Except PyErr String :=
  let bt := pyLower bin_type
  if bt ∉ allowed_bin_types then
    .error (.pairCounter "bin type should be one of [lin, custom, auto]")
  else if bt = "auto" then
    if edges0.length = 0 then .error .indexError
    else if np_allclose (1 / 100000 : α) (1 / 100000000 : α) edges0
        (np_linspace (edges0.getD 0 0) (edges0.getLastD 0) edges0.length) then
      .ok "lin"
    else .ok "auto"
  else .ok bt

/-- The `edges` argument of the constructor: either a bare array of scalars
or a tuple of edge arrays. -/
inductive EdgesInput (α : Type) where
  | bare (l : List α)
  | tup (ls : List (List α))

/-- Lines 134-136: `if np.ndim(edges[0]) == 0: edges = (edges,)`.
A bare array is promoted to a 1-tuple (its first element is a scalar);
a tuple of arrays is kept; `edges[0]` on an empty input raises `IndexError`. -/
def promote_edges {α : Type} : EdgesInput α → Except PyErr (List (List α))
  | .bare l => if l.isEmpty then .error .indexError else .ok [l]
  | .tup ls => if ls.isEmpty then .error .indexError else .ok ls

/-- `BaseTwoPointCounterEngine._set_edges` (lines 133-143): promote the edges,
require 2 edge arrays for modes `smu`/`rppi` and 1 for every other mode,
then resolve the bin type. -/
def set_edges {α : Type} [LinearOrderedField α] (mode : String) (edges : EdgesInput α)
    (bin_type : String) : Except PyErr (List (List α) × String) := do
  let es ← promote_edges edges
  if mode ∈ ["smu", "rppi"] then
    if es.length ≠ 2 then
      throw (.pairCounter ("A tuple of edges should be provided to pair counter in mode " ++ mode))
  else
    if es.length ≠ 1 then
      throw (.pairCounter ("Only one edge array should be provided to pair counter in mode " ++ mode))
  let bt ← set_bin_type bin_type (es.headD [])
  return (es, bt)

/-! ### Weights (`_set_weights`, lines 209-246) and normalization (lines 275-283) -/

def allowed_weight_types : List (Option String) := [none, some "auto", some "pair_product"]

/-- Inner `check_weights` of `_set_weights` (lines 238-240): the weight array
must have the same length as the position arrays.  Passing Python `None`
(possible when `weight_type='pair_product'` is forced with no weights) makes
`len(None)` raise a `TypeError`. -/
def check_weights (w : Option (List ℚ)) (size : ℕ) : Except PyErr Unit :=
  match w with
  | none => .error (.typeError "object of type NoneType has no len()")
  | some l =>
    if l.length ≠ size then
      .error (.pairCounter "Weight array should be of the same length as position arrays")
    else .ok ()

/-- `BaseTwoPointCounterEngine._set_weights` (lines 209-246), together with
`_set_weight_type` (lines 269-273).  Returns the resolved
`(weight_type, weights1, weights2)` triple stored on the counter.
`size1`, `size2` are `len(positions1[0])`, `len(positions2[0])`. -/
def set_weights (autocorr : Bool) (size1 size2 : ℕ) (weights1 weights2 : Option (List ℚ))
    (weight_type : Option String) :
    Except PyErr (Option String × Option (List ℚ) × Option (List ℚ)) := do
  if weight_type ∉ allowed_weight_types then
    throw (.pairCounter "weight_type should be one of [None, auto, pair_product]")
  if autocorr ∧ weights2.isSome then
    throw (.pairCounter "weights2 are provided, but not positions2")
  match weights1 with
  | none =>
    if weights2.isSome then throw (.pairCounter "weights2 are provided, but not weights1")
  | some _ =>
    if autocorr then
      if weights2.isSome then throw (.pairCounter "weights2 are provided, but not positions2")
    else
      if weights2.isNone then throw (.pairCounter "weights1 are provided, but not weights2")
  let wt := if weight_type = some "auto" then
      (if weights1.isNone then none else some "pair_product")
    else weight_type
  if wt = none then
    return (none, none, none)
  else
    check_weights weights1 size1
    if ¬ autocorr then check_weights weights2 size2
    return (wt, weights1, weights2)

/-- Sum of an optional weight array (`w.sum()`). -/
def wsum (w : Option (List ℚ)) : ℚ :=
  match w with
  | none => 0
  | some l => l.sum

/-- Sum of squared weights (`(w**2).sum()`). -/
def wsumsq (w : Option (List ℚ)) : ℚ :=
  match w with
  | none => 0
  | some l => (l.map (fun x => x ^ 2)).sum

/-- `BaseTwoPointCounterEngine.normalization` (lines 275-283).
`size1`, `size2` are `len(positions1[0])`, `len(positions2[0])`. -/
def normalization (weight_type : Option String) (autocorr : Bool) (size1 size2 : ℕ)
    (weights1 weights2 : Option (List ℚ)) : ℚ :=
  if weight_type = none then
    if autocorr then (size1 : ℚ) * ((size1 : ℚ) - 1)
    else (size1 : ℚ) * (size2 : ℚ)
  else
    if autocorr then (wsum weights1) ^ 2 - wsumsq weights1
    else wsum weights1 * wsum weights2

/-! ### Box size (`_set_boxsize`, lines 263-267) and the `periodic` property
(lines 163-165) -/

/-- Value of the `boxsize` attribute: Python `None`, a scalar, a 3-vector,
or the nan-filled `np.empty(3)` produced by broadcasting `None` into a float
array (`arr[:] = None` stores nan). -/
inductive PyBox where
  | pynone
  | pyscalar (x : ℚ)
  | pyvec (x y z : ℚ)
  | pynanvec
  deriving DecidableEq, Repr

/-- Python `boxsize is None`. -/
def boxsize_is_none : PyBox → Bool
  | .pynone => true
  | _ => false

/-- `BaseTwoPointCounterEngine._set_boxsize` (lines 263-267):
`self.boxsize = boxsize; if self.periodic: self.boxsize = np.empty(3);
self.boxsize[:] = boxsize`.  At that point `self.periodic` is
`self.boxsize is None`, so the broadcast branch runs exactly when the input
is `None`, and `np.empty(3)[:] = None` fills the vector with nan. -/
def set_boxsize (boxsize : PyBox) : PyBox :=
  if boxsize_is_none boxsize then .pynanvec else boxsize

/-- The `periodic` property (lines 163-165): `self.boxsize is None`,
evaluated on the stored boxsize. -/
def periodic_of (stored : PyBox) : Bool :=
  boxsize_is_none stored

/-! ### Default separation (`_set_default_sep`, lines 248-255) -/

/-- A stored `sep` array: 1-d or 2-d. -/
inductive Sep where
  | one (l : List ℚ)
  | two (m : List (List ℚ))
  deriving DecidableEq, Repr

/-- `(edges[1:] + edges[:-1]) / 2`: midpoints of consecutive edges. -/
def midpoints (edges0 : List ℚ) : List ℚ :=
  (edges0.zip edges0.tail).map (fun p => (p.2 + p.1) / 2)

/-- numpy assignment `target[...] = src` of a 1-d `src` into a fresh array of
shape `(s0, s1)`: broadcasting aligns the trailing axis, so it succeeds iff
`len(src) = s1` (every row becomes `src`) or `len(src) = 1` (constant fill),
and otherwise raises a `ValueError`. -/
def broadcast_into (s0 s1 : ℕ) (src : List ℚ) : Except PyErr (List (List ℚ)) :=
  if src.length = s1 then .ok (List.replicate s0 src)
  else if src.length = 1 then .ok (List.replicate s0 (List.replicate s1 (src.getD 0 0)))
  else .error (.valueError "could not broadcast input array")

/-- `BaseTwoPointCounterEngine._set_default_sep` (lines 248-255): `sep` is the
vector of first-dimension edge midpoints; with two binning dimensions a fresh
`(shape[0], shape[1])` array is filled by `self.sep[...] = sep`.
It is called from `__init__` (lines 128-129) when `output_sepavg` is false,
overwriting whatever separation the engine's `run()` produced. -/
def set_default_sep (edges : List (List ℚ)) : Except PyErr Sep :=
  let mids := midpoints (edges.headD [])
  if edges.length = 2 then do
    let m ← broadcast_into ((edges.headD []).length - 1) ((edges.getD 1 []).length - 1) mids
    return .two m
  else return .one mids

/-! ### Thread count resolution (`__init__`, lines 113-115) -/

/-- Model of Python `int(s)` on the strings produced by `os.getenv`:
an optional leading minus sign followed by decimal digits. -/
def py_int (s : String) : Option Int :=
  let digitsVal : List Char → Option ℕ := fun cs =>
    if cs ≠ [] ∧ cs.all Char.isDigit then
      some (cs.foldl (fun acc c => 10 * acc + (c.toNat - 48)) 0)
    else none
  match s.data with
  | '-' :: rest => (digitsVal rest).map (fun n => -(n : Int))
  | cs => (digitsVal cs).map (fun n => (n : Int))

/-- Lines 113-115: `self.nthreads = nthreads; if nthreads is None:
self.nthreads = int(os.getenv('OMP_NUM_THREADS', '1'))`.  The environment is
read once, here, with default string `'1'`; the stored value is a plain
attribute used thereafter.  `env_omp` is the value of `OMP_NUM_THREADS`
at construction time (or `none` when unset). -/
def resolve_nthreads (nthreads : Option Int) (env_omp : Option String) : Except PyErr Int :=
  match nthreads with
  | some n => .ok n
  | none =>
    match py_int (env_omp.getD "1") with
    | some k => .ok k
    | none => .error (.valueError "invalid literal for int() with base 10")

/-! ### Rebinning (`rebin`, lines 296-303)

The array-level merge lives in `utils.rebin`, which is not part of
`pair_counter.py`; it is modelled from the spec below (`chunked`,
`rebin1d`, `rebin2d`). -/

/-- A stored `wcounts` array: 1-d or 2-d, matching `ndim`. -/
inductive Counts where
  | one (l : List ℚ)
  | two (m : List (List ℚ))
  deriving DecidableEq, Repr

def counts_ndim : Counts → ℕ
  | .one _ => 1
  | .two _ => 2

/-- The per-dimension bin counts of a stored counts array. -/
def counts_shape : Counts → List ℕ
  | .one l => [l.length]
  | .two m => [m.length, (m.headD []).length]

/-- Sum of all entries of a counts array. -/
def totalSum : Counts → ℚ
  | .one l => l.sum
  | .two m => (m.map List.sum).sum

/-- Split a list into consecutive blocks of `f` elements. -/
def chunked {α : Type} (f : ℕ) : List α → List (List α)
  | [] => []
  | x :: xs =>
    if h : f = 0 then []
    else List.take f (x :: xs) :: chunked f (List.drop f (x :: xs))
termination_by l => l.length
decreasing_by
  have hf : 0 < f := Nat.pos_of_ne_zero h
  simp only [List.length_drop, List.length_cons]
  omega

/-- Modelled from the spec: the 1-d block merge inside `utils.rebin`
(missing from `pair_counter.py`): consecutive blocks of `f` bins are summed
("merges adjacent bins ... summing wcounts"). -/
def rebin1d (f : ℕ) (l : List ℚ) : List ℚ :=
  (chunked f l).map List.sum

/-- Elementwise sum of two rows (`numpy +` on same-length rows). -/
def addRows (a b : List ℚ) : List ℚ :=
  List.zipWith (· + ·) a b

/-- Elementwise sum of a group of rows. -/
def sumRows (rows : List (List ℚ)) : List ℚ :=
  match rows with
  | [] => []
  | r :: rs => rs.foldl addRows r

/-- Modelled from the spec: the 2-d block merge inside `utils.rebin`, with a
block size per dimension: groups of `f1` rows are summed elementwise, then
each resulting row is merged by `f2`. -/
def rebin2d (f1 f2 : ℕ) (m : List (List ℚ)) : List (List ℚ) :=
  ((chunked f1 m).map sumRows).map (rebin1d f2)

/-- Modelled from the spec: `utils.rebin(ndarray, new_shape, statistic)`
(missing from `pair_counter.py`): merges the array onto the target shape
`new_shape`, whose entries "must evenly divide the existing bin count per
dimension or fail", summing the merged bins (`statistic=np.sum`).  The
`Option` models whether the Python call supplies `new_shape` at all: the
merge cannot be performed without a target, so a call that omits the
required argument raises a `TypeError`. -/
def utils_rebin (new_shape : Option (List ℕ)) (w : Counts) : Except PyErr Counts :=
  match new_shape with
  | none => .error (.typeError "rebin() missing 1 required positional argument: new_shape")
  | some ns =>
    match w, ns with
    | .one l, [m] =>
      if 0 < m ∧ m ∣ l.length then .ok (.one (rebin1d (l.length / m) l))
      else .error (.valueError "new shape must evenly divide the original shape")
    | .two mat, [m1, m2] =>
      if 0 < m1 ∧ m1 ∣ mat.length ∧ 0 < m2 ∧ m2 ∣ (mat.headD []).length then
        .ok (.two (rebin2d (mat.length / m1) ((mat.headD []).length / m2) mat))
      else .error (.valueError "new shape must evenly divide the original shape")
    | _, _ => .error (.valueError "new shape does not match the array dimension")

/-- The `factor` argument of `rebin`: a bare integer or a tuple. -/
inductive FactorInput where
  | scalar (f : ℕ)
  | tup (fs : List ℕ)

/-- Lines 297-298: `if np.ndim(factor) == 0: factor = (factor,)`. -/
def promote_factor : FactorInput → List ℕ
  | .scalar f => [f]
  | .tup fs => fs

/-- `BaseTwoPointCounterEngine.rebin` (lines 296-303), restricted to the
`wcounts` update.  The factor is promoted to a tuple and must provide one
entry per dimension (line 300); line 301 computes
`new_shape = tuple(s//f for s,f in zip(self.shape, factor))` — and then
discards it: line 302 calls `utils.rebin(self.wcounts, statistic=np.sum)`
without passing `new_shape`, so the merge never receives the factor. -/
def rebin (factorIn : FactorInput) (ndim : ℕ) (wcounts : Counts) : Except PyErr Counts := do
  let fs := promote_factor factorIn
  if fs.length ≠ ndim then
    throw (.pairCounter "Provide a rebinning factor for each dimension")
  let _new_shape := List.zipWith (fun s f => s / f) (counts_shape wcounts) fs
  utils_rebin none wcounts

/-! ### `AnalyticTwoPointCounter` (lines 319-355) over ℝ -/

/-- `np.diff` of a 1-d array. -/
def np_diff (l : List ℝ) : List ℝ :=
  (l.zip l.tail).map (fun p => p.2 - p.1)

/-- A real-valued result array: 1-d or 2-d. -/
inductive RArr where
  | one (l : List ℝ)
  | two (m : List (List ℝ))

/-- Outer product matrix `m[i][j] = g (xs[i]) (ys[j])`. -/
def np_outer (g : ℝ → ℝ → ℝ) (xs ys : List ℝ) : List (List ℝ) :=
  xs.map (fun x => ys.map (fun y => g x y))

/-- `np.diff` along axis 0 of a 2-d array (consecutive row differences). -/
def np_diff0 (m : List (List ℝ)) : List (List ℝ) :=
  (m.zip m.tail).map (fun p => List.zipWith (fun a b => b - a) p.1 p.2)

/-- `np.diff` along the last axis of a 2-d array. -/
def np_diff1 (m : List (List ℝ)) : List (List ℝ) :=
  m.map np_diff

/-- `AnalyticTwoPointCounter.normalization` (lines 351-354):
`n1 * (n1 - 1)` for an autocorrelation (`n2 is None`), else `n1 * n2` —
object counts, not weights. -/
def analytic_normalization (n1 : ℕ) (n2 : Option ℕ) : ℝ :=
  match n2 with
  | none => (n1 : ℝ) * ((n1 : ℝ) - 1)
  | some m => (n1 : ℝ) * (m : ℝ)

/-- `'xyz'.index(los)`-selected component of the (3-vector) boxsize;
a `los` outside `xyz` raises `ValueError: substring not found`. -/
def los_component (boxsize : ℝ × ℝ × ℝ) (los : String) : Except PyErr ℝ :=
  if los = "x" then .ok boxsize.1
  else if los = "y" then .ok boxsize.2.1
  else if los = "z" then .ok boxsize.2.2
  else .error (.valueError "substring not found")

/-- `AnalyticTwoPointCounter.run` (lines 332-349) with the boxsize given as a
3-vector (`self.boxsize.prod()` is its product).  Shell-volume differences
per mode; any other mode raises
`PairCounterError('No analytic randoms provided for mode {mode}')`. -/
noncomputable def analytic_run (mode : String) (edges : List (List ℝ)) (boxsize : ℝ × ℝ × ℝ)
    (los : String) (n1 : ℕ) (n2 : Option ℕ) : Except PyErr RArr := do
  let vol := boxsize.1 * boxsize.2.1 * boxsize.2.2
  let norm := analytic_normalization n1 n2
  if mode = "s" then
    let v := (edges.headD []).map (fun e => 4 / 3 * Real.pi * e ^ 3)
    return .one ((np_diff v).map (fun dv => norm * dv / vol))
  else if mode = "smu" then
    let v := np_outer (fun e mu => 4 / 3 * Real.pi * e ^ 3 * mu) (edges.headD []) (edges.getD 1 [])
    return .two ((np_diff1 (np_diff0 v)).map (fun r => r.map (fun dv => norm * dv / vol)))
  else if mode = "rppi" then
    let v := np_outer (fun e p => 2 * Real.pi * e ^ 2 * p) (edges.headD []) (edges.getD 1 [])
    return .two ((np_diff1 (np_diff0 v)).map (fun r => r.map (fun dv => norm * dv / vol)))
  else if mode = "rp" then
    let L ← los_component boxsize los
    let v := (edges.headD []).map (fun e => Real.pi * e ^ 2 * L)
    return .two ((np_diff v).map (fun dv => [norm * dv / vol]))
  else
    throw (.pairCounter ("No analytic randoms provided for mode " ++ mode))

/-- `np.logspace(a, b, num)`: `10 ** linspace(a, b, num)`. -/
noncomputable def np_logspace (a b : ℝ) (num : ℕ) : List ℝ :=
  (np_linspace a b num).map (fun x => (10 : ℝ) ^ x)

/-! ## Helper lemmas -/

theorem getD_map_range {α : Type} (f : ℕ → α) {n i : ℕ} (h : i < n) (d : α) :
    ((List.range n).map f).getD i d = f i := by
  rw [List.getD_eq_getElem _ _ (by simpa using h)]
  simp [List.getElem_map, List.getElem_range]

theorem getLastD_map_range {α : Type} (f : ℕ → α) {n : ℕ} (h : 0 < n) (d : α) :
    ((List.range n).map f).getLastD d = f (n - 1) := by
  rw [List.getLastD_eq_getLast?, List.getLast?_eq_getElem?]
  simp only [List.length_map, List.length_range]
  rw [List.getElem?_eq_getElem (by simp; omega)]
  simp [List.getElem_map, List.getElem_range]

theorem getD_map {α β : Type} (f : α → β) (l : List α) {i : ℕ} (h : i < l.length) (d : β)
    (d' : α) : (l.map f).getD i d = f (l.getD i d') := by
  rw [List.getD_eq_getElem _ _ (by simpa using h), List.getD_eq_getElem _ _ h, List.getElem_map]

theorem np_allclose_self {α : Type} [LinearOrderedField α] {rtol atol : α}
    (hr : 0 ≤ rtol) (ha : 0 ≤ atol) (l : List α) : np_allclose rtol atol l l = true := by
  induction l with
  | nil => rfl
  | cons x xs ih =>
    simp only [np_allclose, List.zip_cons_cons, List.all_cons, Bool.and_eq_true,
      decide_eq_true_eq] at ih ⊢
    refine ⟨?_, ih⟩
    have h0 : |x - x| = 0 := by simp
    rw [h0]
    positivity

theorem pyLower_auto : pyLower "auto" = "auto" := rfl

theorem length_np_diff (l : List ℝ) : (np_diff l).length = l.length - 1 := by
  simp [np_diff, List.length_tail]

theorem np_diff_getD (l : List ℝ) {i : ℕ} (h : i + 1 < l.length) :
    (np_diff l).getD i 0 = l.getD (i + 1) 0 - l.getD i 0 := by
  have hz : i < (l.zip l.tail).length := by
    simp [List.length_zip, List.length_tail]; omega
  rw [List.getD_eq_getElem _ _ (by rw [length_np_diff]; omega),
    List.getD_eq_getElem _ _ (by omega : i + 1 < l.length),
    List.getD_eq_getElem _ _ (by omega : i < l.length)]
  simp only [np_diff, List.getElem_map, List.getElem_zip]
  rw [List.getElem_tail]

theorem chunked_flatten {α : Type} {f : ℕ} (hf : 0 < f) (l : List α) :
    (chunked f l).flatten = l := by
  have key : ∀ (n : ℕ) (l : List α), l.length ≤ n → (chunked f l).flatten = l := by
    intro n
    induction n with
    | zero =>
      intro l hl
      have : l = [] := List.eq_nil_of_length_eq_zero (Nat.le_zero.mp hl)
      subst this
      simp [chunked]
    | succ n ih =>
      intro l hl
      cases l with
      | nil => simp [chunked]
      | cons x xs =>
        rw [chunked, dif_neg (Nat.pos_iff_ne_zero.mp hf), List.flatten_cons,
          ih (List.drop f (x :: xs)) ?_, List.take_append_drop]
        simp only [List.length_drop, List.length_cons] at *
        omega
  exact key l.length l le_rfl

theorem sum_chunked {f : ℕ} (hf : 0 < f) (l : List ℚ) :
    ((chunked f l).map List.sum).sum = l.sum := by
  rw [← List.sum_flatten, chunked_flatten hf]

theorem mem_of_mem_chunked {α : Type} {f : ℕ} (hf : 0 < f) {l : List α} {g : List α}
    (hg : g ∈ chunked f l) {x : α} (hx : x ∈ g) : x ∈ l := by
  rw [← chunked_flatten hf l]
  exact List.mem_flatten.mpr ⟨g, hg, hx⟩

theorem addRows_sum {a b : List ℚ} (h : a.length = b.length) :
    (addRows a b).sum = a.sum + b.sum := by
  induction a generalizing b with
  | nil =>
    have : b = [] := List.eq_nil_of_length_eq_zero (by simpa using h.symm)
    subst this
    simp [addRows]
  | cons x xs ih =>
    cases b with
    | nil => simp at h
    | cons y ys =>
      simp only [List.length_cons] at h
      simp only [addRows, List.zipWith_cons_cons, List.sum_cons]
      rw [show List.zipWith (· + ·) xs ys = addRows xs ys from rfl, ih (by omega)]
      ring

theorem addRows_length (a b : List ℚ) : (addRows a b).length = min a.length b.length := by
  simp [addRows]

theorem foldl_addRows_sum (rs : List (List ℚ)) :
    ∀ r : List ℚ, (∀ x ∈ rs, x.length = r.length) →
      (rs.foldl addRows r).sum = r.sum + (rs.map List.sum).sum := by
  induction rs with
  | nil => intro r _; simp
  | cons x xs ih =>
    intro r hlen
    have hx : x.length = r.length := hlen x (by simp)
    have hlen' : ∀ y ∈ xs, y.length = (addRows r x).length := by
      intro y hy
      rw [addRows_length, hx, Nat.min_self]
      exact hlen y (by simp [hy])
    simp only [List.foldl_cons, List.map_cons, List.sum_cons]
    rw [ih (addRows r x) hlen', addRows_sum hx.symm]
    ring

theorem sumRows_sum {rows : List (List ℚ)} {c : ℕ} (h : ∀ r ∈ rows, r.length = c) :
    (sumRows rows).sum = (rows.map List.sum).sum := by
  cases rows with
  | nil => simp [sumRows]
  | cons r rs =>
    have hr : r.length = c := h r (by simp)
    have hrs : ∀ x ∈ rs, x.length = r.length := by
      intro x hx
      rw [hr]
      exact h x (by simp [hx])
    simp only [sumRows, List.map_cons, List.sum_cons]
    rw [foldl_addRows_sum rs r hrs]

theorem totalSum_rebin2d {f1 f2 : ℕ} (hf1 : 0 < f1) (hf2 : 0 < f2) {m : List (List ℚ)} {c : ℕ}
    (hrect : ∀ r ∈ m, r.length = c) :
    ((rebin2d f1 f2 m).map List.sum).sum = (m.map List.sum).sum := by
  unfold rebin2d rebin1d
  simp only [List.map_map]
  have step1 : ∀ g ∈ chunked f1 m,
      ((chunked f2 (sumRows g)).map List.sum).sum = (g.map List.sum).sum := by
    intro g hg
    rw [sum_chunked hf2]
    exact sumRows_sum (fun r hr => hrect r (mem_of_mem_chunked hf1 hg hr))
  have step2 : ((chunked f1 m).map (List.sum ∘ (fun r => (chunked f2 r).map List.sum) ∘ sumRows))
      = (chunked f1 m).map (fun g => (g.map List.sum).sum) := by
    apply List.map_congr_left
    intro g hg
    exact step1 g hg
  rw [step2]
  have step3 : ((chunked f1 m).map (fun g => g.map List.sum)).map List.sum
      = (chunked f1 m).map (fun g => (g.map List.sum).sum) := by
    rw [List.map_map]
    rfl
  rw [← step3, ← List.sum_flatten, ← List.map_flatten, chunked_flatten hf1]

theorem throw_eq {ε α : Type} (e : ε) : (throw e : Except ε α) = Except.error e := rfl

theorem pure_eq {ε α : Type} (a : α) : (pure a : Except ε α) = Except.ok a := rfl

theorem error_bind {ε α β : Type} (e : ε) (f : α → Except ε β) :
    (Except.error e : Except ε α) >>= f = Except.error e := rfl

theorem ok_bind {ε α β : Type} (a : α) (f : α → Except ε β) :
    (Except.ok a : Except ε α) >>= f = f a := rfl

theorem fmap_eq {ε α β : Type} (f : α → β) (x : Except ε α) : f <$> x = Except.map f x := rfl

theorem except_map_ok {ε α β : Type} (f : α → β) (a : α) :
    Except.map f (Except.ok a : Except ε α) = Except.ok (f a) := rfl

theorem except_map_error {ε α β : Type} (f : α → β) (e : ε) :
    Except.map f (Except.error e : Except ε α) = Except.error e := rfl

/-! ## Claim theorems -/

/-- C1: evaluation of the code at the failing input.  Contrary to the claim, a
*given* box geometry is kept as passed (a scalar is not broadcast to a
3-vector) and the `periodic` property returns `false` for it — the broadcast
branch runs only for `boxsize = None`, after which the stored nan-vector also
makes `periodic` return `false`. -/
theorem C1_boxsize_code_eval :
    set_boxsize (PyBox.pyscalar 1000) = PyBox.pyscalar 1000 ∧
    periodic_of (set_boxsize (PyBox.pyscalar 1000)) = false ∧
    set_boxsize (PyBox.pyvec 1000 1000 1000) = PyBox.pyvec 1000 1000 1000 ∧
    periodic_of (set_boxsize (PyBox.pyvec 1000 1000 1000)) = false ∧
    set_boxsize PyBox.pynone = PyBox.pynanvec ∧
    periodic_of (set_boxsize PyBox.pynone) = false :=
  ⟨rfl, rfl, rfl, rfl, rfl, rfl⟩

/-- `set_bin_type` with the default `auto` argument and nonempty edges reduces
to the `np.allclose` comparison against the recomputed linspace. -/
theorem set_bin_type_auto_eq {α : Type} [LinearOrderedField α] (l : List α)
    (h : l.length ≠ 0) :
    set_bin_type "auto" l =
      (if np_allclose (1 / 100000 : α) (1 / 100000000 : α) l
          (np_linspace (l.getD 0 0) (l.getLastD 0) l.length) = true then
        Except.ok "lin"
      else Except.ok "auto") := by
  simp [set_bin_type, pyLower_auto, allowed_bin_types, h]

/-- C5: a construction accepts exactly 2 edge arrays in modes `smu`/`rppi` and
exactly 1 in every other mode; any other count of edge arrays fails with a
`PairCounterError` (the spec's `ConfigurationError`). -/
theorem C5_edges_ndim (mode : String) (edges : EdgesInput ℚ) (bt : String)
    (es : List (List ℚ)) (hp : promote_edges edges = .ok es) :
    (∀ res, set_edges mode edges bt = .ok res →
      res.1.length = (if mode ∈ ["smu", "rppi"] then 2 else 1)) ∧
    (es.length ≠ (if mode ∈ ["smu", "rppi"] then 2 else 1) →
      ∃ msg, set_edges mode edges bt = .error (.pairCounter msg)) ∧
    (es.length = (if mode ∈ ["smu", "rppi"] then 2 else 1) → es.headD [] ≠ [] →
      ∃ bt', set_edges mode edges "auto" = .ok (es, bt')) := by
  have hbase : ∀ b : String, set_edges mode edges b =
      (if mode ∈ ["smu", "rppi"] then
        (if es.length ≠ 2 then
          Except.error (PyErr.pairCounter
            ("A tuple of edges should be provided to pair counter in mode " ++ mode))
        else (set_bin_type b (es.headD [])).map (fun bt' => (es, bt')))
      else
        (if es.length ≠ 1 then
          Except.error (PyErr.pairCounter
            ("Only one edge array should be provided to pair counter in mode " ++ mode))
        else (set_bin_type b (es.headD [])).map (fun bt' => (es, bt')))) := by
    intro b
    simp only [set_edges, hp, bind, Except.bind]
    by_cases hm : mode ∈ ["smu", "rppi"] <;>
      by_cases hl : es.length = (if mode ∈ ["smu", "rppi"] then 2 else 1) <;>
        simp only [hm, hl, if_true, if_false, ne_eq] at * <;>
          simp [hm, hl] <;>
            cases hsb : set_bin_type b (es.headD []) <;>
              simp [Except.map, pure, Except.pure]
  refine ⟨?_, ?_, ?_⟩
  · intro res hres
    rw [hbase bt] at hres
    by_cases hm : mode ∈ ["smu", "rppi"]
    · rw [if_pos hm] at hres
      rw [if_pos hm]
      by_cases hl : es.length ≠ 2
      · rw [if_pos hl] at hres
        simp at hres
      · rw [if_neg hl] at hres
        push_neg at hl
        cases hsb : set_bin_type bt (es.headD []) with
        | error e => rw [hsb] at hres; simp [Except.map] at hres
        | ok v =>
          rw [hsb] at hres
          simp only [Except.map, Except.ok.injEq] at hres
          rw [← hres, hl]
    · rw [if_neg hm] at hres
      rw [if_neg hm]
      by_cases hl : es.length ≠ 1
      · rw [if_pos hl] at hres
        simp at hres
      · rw [if_neg hl] at hres
        push_neg at hl
        cases hsb : set_bin_type bt (es.headD []) with
        | error e => rw [hsb] at hres; simp [Except.map] at hres
        | ok v =>
          rw [hsb] at hres
          simp only [Except.map, Except.ok.injEq] at hres
          rw [← hres, hl]
  · intro hne
    rw [hbase bt]
    by_cases hm : mode ∈ ["smu", "rppi"]
    · rw [if_pos hm] at hne ⊢
      exact ⟨_, by rw [if_pos hne]⟩
    · rw [if_neg hm] at hne ⊢
      exact ⟨_, by rw [if_pos hne]⟩
  · intro hlen hhead
    have hhead' : (es.headD []).length ≠ 0 := by
      simpa [List.length_eq_zero] using hhead
    have hok : ∃ bt', set_bin_type "auto" (es.headD []) = .ok bt' := by
      rw [set_bin_type_auto_eq _ hhead']
      by_cases hac : np_allclose (1 / 100000 : ℚ) (1 / 100000000 : ℚ) (es.headD [])
          (np_linspace ((es.headD []).getD 0 0) ((es.headD []).getLastD 0)
            (es.headD []).length) = true
      · exact ⟨"lin", by rw [if_pos hac]⟩
      · exact ⟨"auto", by rw [if_neg hac]⟩
    obtain ⟨bt', hbt'⟩ := hok
    refine ⟨bt', ?_⟩
    rw [hbase "auto"]
    by_cases hm : mode ∈ ["smu", "rppi"]
    · rw [if_pos hm] at hlen ⊢
      rw [if_neg (by simp [hlen]), hbt']
      simp [Except.map]
    · rw [if_neg hm] at hlen ⊢
      rw [if_neg (by simp [hlen]), hbt']
      simp [Except.map]

/-- C5 witness: mode `smu` with two edge arrays is accepted. -/
theorem C5_edges_ndim_witness :
    ∃ bt', set_edges "smu" (EdgesInput.tup ([[0, 1], [0, 1]] : List (List ℚ))) "auto" =
      .ok ([[0, 1], [0, 1]], bt') :=
  (C5_edges_ndim "smu" (EdgesInput.tup [[0, 1], [0, 1]]) "auto" [[0, 1], [0, 1]]
    (by simp [promote_edges])).2.2 (by simp) (by simp)

/-- C7: requesting analytic randoms for any mode without a closed form (any
mode other than `s`, `smu`, `rppi`, `rp`) fails with a `PairCounterError`
(the spec's `ConfigurationError`) saying no analytic solution exists for that
mode. -/
theorem C7_no_analytic_randoms (mode : String) (edges : List (List ℝ))
    (boxsize : ℝ × ℝ × ℝ) (los : String) (n1 : ℕ) (n2 : Option ℕ)
    (h : mode ∉ ["s", "smu", "rppi", "rp"]) :
    analytic_run mode edges boxsize los n1 n2 =
      .error (.pairCounter ("No analytic randoms provided for mode " ++ mode)) := by
  simp only [List.mem_cons, List.mem_singleton, not_or] at h
  obtain ⟨h1, h2, h3, h4, -⟩ := h
  simp [analytic_run, h1, h2, h3, h4, throw_eq]

/-- C7 witness: mode `theta` has no analytic randoms. -/
theorem C7_no_analytic_randoms_witness :
    analytic_run "theta" [[0, 1]] (1, 1, 1) "midpoint" 10 none =
      .error (.pairCounter ("No analytic randoms provided for mode " ++ "theta")) :=
  C7_no_analytic_randoms "theta" [[0, 1]] (1, 1, 1) "midpoint" 10 none (by decide)

/-- C8: for a cross-correlation (`autocorr = false`), providing weights for
exactly one of the two catalogs fails with a `PairCounterError` (the spec's
`ConfigurationError`), for every allowed `weight_type`; providing both or
neither passes the symmetry check. -/
theorem C8_weight_presence_symmetry :
    (∀ (n1 n2 : ℕ) (w1 : List ℚ) (wt : Option String), wt ∈ allowed_weight_types →
      set_weights false n1 n2 (some w1) none wt =
        .error (.pairCounter "weights1 are provided, but not weights2")) ∧
    (∀ (n1 n2 : ℕ) (w2 : List ℚ) (wt : Option String), wt ∈ allowed_weight_types →
      set_weights false n1 n2 none (some w2) wt =
        .error (.pairCounter "weights2 are provided, but not weights1")) ∧
    (∀ n1 n2 : ℕ, set_weights false n1 n2 none none (some "auto") = .ok (none, none, none)) ∧
    (∀ (w1 w2 : List ℚ),
      set_weights false w1.length w2.length (some w1) (some w2) (some "auto") =
        .ok (some "pair_product", some w1, some w2)) := by
  refine ⟨?_, ?_, ?_, ?_⟩
  · intro n1 n2 w1 wt hwt
    simp [set_weights, hwt, throw_eq, pure_eq, error_bind, ok_bind, fmap_eq]
  · intro n1 n2 w2 wt hwt
    simp [set_weights, hwt, throw_eq, pure_eq, error_bind, ok_bind, fmap_eq]
  · intro n1 n2
    simp [set_weights, allowed_weight_types, throw_eq, pure_eq, error_bind, ok_bind, fmap_eq]
  · intro w1 w2
    simp [set_weights, allowed_weight_types, check_weights, throw_eq, pure_eq, error_bind,
      ok_bind, fmap_eq, except_map_ok]

/-- C8 witness. -/
theorem C8_weight_presence_symmetry_witness :
    set_weights false 3 4 (some [1, 2]) none (some "auto") =
      .error (.pairCounter "weights1 are provided, but not weights2") :=
  C8_weight_presence_symmetry.1 3 4 [1, 2] (some "auto") (by simp [allowed_weight_types])

/-- C10: with `nthreads = None`, the thread count stored at construction is
the integer value of `OMP_NUM_THREADS`, defaulting to `1` when the variable
is unset; an explicit `nthreads` is stored as given (the environment is read
only through the `env_omp` snapshot taken at construction). -/
theorem C10_nthreads_resolution :
    (∀ (n : ℤ) (env : Option String), resolve_nthreads (some n) env = .ok n) ∧
    resolve_nthreads none none = .ok 1 ∧
    (∀ (s : String) (k : ℤ), py_int s = some k →
      resolve_nthreads none (some s) = .ok k) := by
  refine ⟨fun n env => rfl, rfl, ?_⟩
  intro s k hk
  simp [resolve_nthreads, hk]

/-- C10 witness: `OMP_NUM_THREADS=4` resolves to 4 threads. -/
theorem C10_nthreads_resolution_witness :
    resolve_nthreads none (some "4") = .ok 4 :=
  C10_nthreads_resolution.2.2 "4" 4 (by decide)

/-- C3: the normalization constant produced by `normalization()` on the state
resolved by `_set_weights`: `N(N-1)` for an unweighted autocorrelation,
`N1*N2` for an unweighted cross-correlation, `(Σw)² - Σ(w²)` for a weighted
autocorrelation and `Σw1 * Σw2` for a weighted cross-correlation. -/
theorem C3_normalization_constant :
    (∀ n1 n2 : ℕ,
      set_weights true n1 n2 none none (some "auto") = .ok (none, none, none) ∧
      normalization none true n1 n2 none none = (n1 : ℚ) * ((n1 : ℚ) - 1)) ∧
    (∀ n1 n2 : ℕ,
      set_weights false n1 n2 none none (some "auto") = .ok (none, none, none) ∧
      normalization none false n1 n2 none none = (n1 : ℚ) * (n2 : ℚ)) ∧
    (∀ (w1 : List ℚ) (n2 : ℕ),
      set_weights true w1.length n2 (some w1) none (some "auto") =
        .ok (some "pair_product", some w1, none) ∧
      normalization (some "pair_product") true w1.length n2 (some w1) none =
        w1.sum ^ 2 - (w1.map (fun x => x ^ 2)).sum) ∧
    (∀ (w1 w2 : List ℚ),
      set_weights false w1.length w2.length (some w1) (some w2) (some "auto") =
        .ok (some "pair_product", some w1, some w2) ∧
      normalization (some "pair_product") false w1.length w2.length (some w1) (some w2) =
        w1.sum * w2.sum) := by
  refine ⟨?_, ?_, ?_, ?_⟩
  · intro n1 n2
    exact ⟨by simp [set_weights, allowed_weight_types, pure_eq, ok_bind], by simp [normalization]⟩
  · intro n1 n2
    exact ⟨by simp [set_weights, allowed_weight_types, pure_eq, ok_bind], by simp [normalization]⟩
  · intro w1 n2
    refine ⟨by simp [set_weights, allowed_weight_types, check_weights, pure_eq, ok_bind,
      fmap_eq, except_map_ok], ?_⟩
    simp [normalization, wsum, wsumsq]
  · intro w1 w2
    refine ⟨by simp [set_weights, allowed_weight_types, check_weights, pure_eq, ok_bind,
      fmap_eq, except_map_ok], ?_⟩
    simp [normalization, wsum]


/-- C9: evaluation of `_set_default_sep` at concrete inputs.  With 1-d
binning `sep` is the vector of first-dimension edge midpoints, as claimed.
With 2-d binning the claim fails on the code: `self.sep[...] = sep`
broadcasts the length-`shape[0]` midpoint vector along the *first* axis, so
rectangular binnings (`shape[0] ≠ shape[1]`, e.g. 2 s-bins x 3 mu-bins)
raise a numpy `ValueError`, and square binnings store `sep[i][j] =
midpoint j` (varying along the second dimension) instead of the claimed
`midpoint i` broadcast over the second dimension. -/
theorem C9_default_sep_code_eval :
    set_default_sep [[0, 2, 4]] = .ok (Sep.one [1, 3]) ∧
    set_default_sep [[0, 2, 4], [0, 1, 2, 3]] =
      .error (.valueError "could not broadcast input array") ∧
    set_default_sep [[0, 2, 4], [0, 1, 2]] = .ok (Sep.two [[1, 3], [1, 3]]) := by
  refine ⟨?_, ?_, ?_⟩
  · simp [set_default_sep, midpoints, pure_eq]
    norm_num
  · simp [set_default_sep, midpoints, broadcast_into, throw_eq, pure_eq, error_bind, ok_bind]
  · simp [set_default_sep, midpoints, broadcast_into, pure_eq, ok_bind, List.replicate]
    norm_num

/-- The spec-modelled merge `utils_rebin`, *when it is given* a valid target
shape (each entry positive, dividing a positive bin count, rectangular 2-d
array), succeeds and conserves the total of the wcounts entries. -/
theorem utils_rebin_conserves (ns : List ℕ) (w : Counts)
    (hlen : ns.length = counts_ndim w)
    (hdvd : ∀ p ∈ ns.zip (counts_shape w), 0 < p.1 ∧ p.1 ∣ p.2)
    (hpos : ∀ d ∈ counts_shape w, 0 < d)
    (hrect : ∀ m, w = Counts.two m → ∀ r ∈ m, r.length = (m.headD []).length) :
    ∃ w', utils_rebin (some ns) w = .ok w' ∧ totalSum w' = totalSum w := by
  cases w with
  | one l =>
    obtain ⟨m, hm⟩ := List.length_eq_one.mp hlen
    have hd := hdvd (m, l.length) (by simp [hm, counts_shape])
    have hlpos : 0 < l.length := hpos l.length (by simp [counts_shape])
    have hfpos : 0 < l.length / m := Nat.div_pos (Nat.le_of_dvd hlpos hd.2) hd.1
    refine ⟨Counts.one (rebin1d (l.length / m) l), ?_, ?_⟩
    · simp only [utils_rebin, hm]
      rw [if_pos ⟨hd.1, hd.2⟩]
    · simp [totalSum, rebin1d, sum_chunked hfpos]
  | two mat =>
    obtain ⟨m1, m2, hm⟩ := List.length_eq_two.mp hlen
    have hd1 := hdvd (m1, mat.length) (by simp [hm, counts_shape])
    have hd2 := hdvd (m2, (mat.headD []).length) (by simp [hm, counts_shape])
    have h1pos : 0 < mat.length := hpos mat.length (by simp [counts_shape])
    have h2pos : 0 < (mat.headD []).length := hpos (mat.headD []).length (by simp [counts_shape])
    have hf1 : 0 < mat.length / m1 := Nat.div_pos (Nat.le_of_dvd h1pos hd1.2) hd1.1
    have hf2 : 0 < (mat.headD []).length / m2 :=
      Nat.div_pos (Nat.le_of_dvd h2pos hd2.2) hd2.1
    refine ⟨Counts.two (rebin2d (mat.length / m1) ((mat.headD []).length / m2) mat), ?_, ?_⟩
    · simp only [utils_rebin, hm]
      rw [if_pos ⟨hd1.1, hd1.2, hd2.1, hd2.2⟩]
    · simp only [totalSum]
      exact totalSum_rebin2d hf1 hf2 (hrect mat rfl)

/-- C4: evaluation of `rebin` as the source has it.  Contrary to the claim,
`rebin` never merges the wcounts: line 301's `new_shape` is computed and
discarded, and line 302 calls `utils.rebin` (modelled from the spec, whose
merge requires the target shape) without it, so every rebin call fails with
a `TypeError` — the factor has no channel into the merge.  The two final
conjuncts show the spec-modelled merge itself, when actually given the
target shape, performs the factor-2 merge and conserves the wcounts total
(so the claim describes the intent, and the dropped argument is the bug). -/
theorem C4_rebin_code_eval :
    rebin (FactorInput.scalar 2) 1 (Counts.one [1, 2, 3, 4]) =
      .error (.typeError "rebin() missing 1 required positional argument: new_shape") ∧
    rebin (FactorInput.tup [2, 2]) 2 (Counts.two [[1, 2], [3, 4]]) =
      .error (.typeError "rebin() missing 1 required positional argument: new_shape") ∧
    utils_rebin (some [2]) (Counts.one [1, 2, 3, 4]) = .ok (Counts.one [3, 7]) ∧
    totalSum (Counts.one [3, 7]) = totalSum (Counts.one [(1 : ℚ), 2, 3, 4]) := by
  refine ⟨?_, ?_, ?_, ?_⟩
  · simp [rebin, promote_factor, utils_rebin, throw_eq, pure_eq, ok_bind]
  · simp [rebin, promote_factor, utils_rebin, throw_eq, pure_eq, ok_bind]
  · norm_num [utils_rebin, rebin1d, chunked]
  · norm_num [totalSum]

/-- C6: for the analytic counter in mode `s`, every wcounts entry equals the
normalization (`n1*(n1-1)` for an autocorrelation with `n2` absent,
`n1*n2` for a cross-correlation — object counts, not weights) times the
difference of full-sphere volumes `4/3*pi*edge^3` of consecutive edges,
divided by the box volume. -/
theorem C6_analytic_s_wcounts (edges0 : List ℝ) (rest : List (List ℝ)) (b1 b2 b3 : ℝ)
    (los : String) (n1 : ℕ) (n2 : Option ℕ) (i : ℕ) (hi : i + 1 < edges0.length) :
    ∃ w, analytic_run "s" (edges0 :: rest) (b1, b2, b3) los n1 n2 = .ok (.one w) ∧
      w.getD i 0 =
        (match n2 with
          | none => (n1 : ℝ) * ((n1 : ℝ) - 1)
          | some m => (n1 : ℝ) * (m : ℝ)) *
        (4 / 3 * Real.pi * (edges0.getD (i + 1) 0) ^ 3
          - 4 / 3 * Real.pi * (edges0.getD i 0) ^ 3) / (b1 * b2 * b3) := by
  refine ⟨(np_diff (edges0.map (fun e => 4 / 3 * Real.pi * e ^ 3))).map
      (fun dv => analytic_normalization n1 n2 * dv / (b1 * b2 * b3)), ?_, ?_⟩
  · simp [analytic_run, pure_eq]
  · have hvlen : (edges0.map (fun e => 4 / 3 * Real.pi * e ^ 3)).length = edges0.length := by
      simp
    have hdlen : (np_diff (edges0.map (fun e => 4 / 3 * Real.pi * e ^ 3))).length =
        edges0.length - 1 := by
      rw [length_np_diff, hvlen]
    rw [getD_map _ _ (by rw [hdlen]; omega) _ 0]
    rw [np_diff_getD _ (by rw [hvlen]; omega)]
    rw [getD_map _ _ (by omega) _ 0, getD_map _ _ (by omega) _ 0]
    cases n2 <;> simp [analytic_normalization]

/-- C6 witness: edges `[0, 1]`, box `10x10x10`, autocorrelation of 10
objects. -/
theorem C6_analytic_s_wcounts_witness :
    ∃ w, analytic_run "s" [[0, 1]] (10, 10, 10) "z" 10 none = .ok (.one w) ∧
      w.getD 0 0 = (10 : ℝ) * ((10 : ℝ) - 1) *
        (4 / 3 * Real.pi * (([0, 1] : List ℝ).getD 1 0) ^ 3
          - 4 / 3 * Real.pi * (([0, 1] : List ℝ).getD 0 0) ^ 3) / (10 * 10 * 10) :=
  C6_analytic_s_wcounts [0, 1] [] 10 10 10 "z" 10 none 0 (by norm_num)

theorem np_logspace_m4_0_40_length : (np_logspace (-4 : ℝ) 0 40).length = 40 := by
  simp [np_logspace, np_linspace]

theorem np_logspace_m4_0_40_getD_0 : (np_logspace (-4 : ℝ) 0 40).getD 0 0 = 1 / 10000 := by
  rw [np_logspace, getD_map _ _ (by simp [np_linspace]) _ 0]
  rw [np_linspace, getD_map_range]
  · rw [show ((-4 : ℝ) + ((0 : ℕ) : ℝ) * ((0 : ℝ) - (-4)) / (((40 : ℕ) : ℝ) - 1)) =
        (((-4 : ℤ) : ℝ)) by push_cast; ring]
    rw [Real.rpow_intCast]
    norm_num
  · norm_num

theorem np_logspace_m4_0_40_getLastD : (np_logspace (-4 : ℝ) 0 40).getLastD 0 = 1 := by
  rw [np_logspace, np_linspace, List.map_map, getLastD_map_range _ (by norm_num)]
  show (10 : ℝ) ^ ((-4 : ℝ) + ((39 : ℕ) : ℝ) * ((0 : ℝ) - (-4)) / (((40 : ℕ) : ℝ) - 1)) = 1
  rw [show ((-4 : ℝ) + ((39 : ℕ) : ℝ) * ((0 : ℝ) - (-4)) / (((40 : ℕ) : ℝ) - 1)) = (0 : ℝ) by
    push_cast; ring]
  exact Real.rpow_zero 10

theorem getElem_np_logspace {a b : ℝ} {num i : ℕ} (_hnum : i < num)
    (h : i < (np_logspace a b num).length) :
    (np_logspace a b num)[i] = (10 : ℝ) ^ (a + (i : ℝ) * (b - a) / ((num : ℝ) - 1)) := by
  simp [np_logspace, np_linspace, List.map_map, List.getElem_map, List.getElem_range,
    Function.comp]

theorem getElem_np_linspace {α : Type} [Field α] {a b : α} {num i : ℕ} (_hnum : i < num)
    (h : i < (np_linspace a b num).length) :
    (np_linspace a b num)[i] = a + (i : α) * (b - a) / ((num : α) - 1) := by
  simp [np_linspace, List.getElem_map, List.getElem_range]

theorem np_allclose_logspace_false :
    np_allclose (1 / 100000 : ℝ) (1 / 100000000) (np_logspace (-4 : ℝ) 0 40)
      (np_linspace (1 / 10000 : ℝ) 1 40) = false := by
  rw [← Bool.not_eq_true]
  intro hT
  simp only [np_allclose] at hT
  have hLlen : (np_logspace (-4 : ℝ) 0 40).length = 40 := np_logspace_m4_0_40_length
  have hBlen : (np_linspace (1 / 10000 : ℝ) 1 40).length = 40 := by simp [np_linspace]
  have h1 : (1 : ℕ) <
      ((np_logspace (-4 : ℝ) 0 40).zip (np_linspace (1 / 10000 : ℝ) 1 40)).length := by
    rw [List.length_zip, hLlen, hBlen]
    norm_num
  have hp := List.all_eq_true.mp hT _ (List.getElem_mem h1)
  rw [List.getElem_zip] at hp
  simp only [decide_eq_true_eq] at hp
  rw [getElem_np_logspace (by norm_num) (by rw [hLlen]; norm_num),
    getElem_np_linspace (by norm_num) (by rw [hBlen]; norm_num)] at hp
  have hb1 : (1 / 10000 : ℝ) + ((1 : ℕ) : ℝ) * (1 - 1 / 10000) / (((40 : ℕ) : ℝ) - 1) =
      1673 / 65000 := by
    push_cast
    norm_num
  rw [hb1] at hp
  have hclt : ((-4 : ℝ) + ((1 : ℕ) : ℝ) * ((0 : ℝ) - (-4)) / (((40 : ℕ) : ℝ) - 1)) <
      (((-3 : ℤ) : ℝ)) := by
    push_cast
    norm_num
  have h10 : (10 : ℝ) ^ (((-3 : ℤ) : ℝ)) = 1 / 1000 := by
    rw [Real.rpow_intCast]
    norm_num
  have ha1lt : (10 : ℝ) ^ ((-4 : ℝ) + ((1 : ℕ) : ℝ) * ((0 : ℝ) - (-4)) / (((40 : ℕ) : ℝ) - 1))
      < 1 / 1000 := by
    rw [← h10]
    exact Real.rpow_lt_rpow_of_exponent_lt (by norm_num) hclt
  have ha1pos : (0 : ℝ) <
      (10 : ℝ) ^ ((-4 : ℝ) + ((1 : ℕ) : ℝ) * ((0 : ℝ) - (-4)) / (((40 : ℕ) : ℝ) - 1)) :=
    Real.rpow_pos_of_pos (by norm_num) _
  rw [abs_of_nonpos (by linarith), abs_of_nonneg (by norm_num)] at hp
  linarith

/-- C2 counterexample: with the faithful `_set_bin_type`, the edges
`logspace(-4, 0, 40)` fail the `np.allclose` test and the stored bin type is
*left as `auto`* — it does not resolve to `custom` as the claim states,
because the code has no `else` branch setting `custom`. -/
theorem C2_bin_type_auto_counterexample :
    set_bin_type "auto" (np_logspace (-4 : ℝ) 0 40) = .ok "auto" ∧
    set_bin_type "auto" (np_logspace (-4 : ℝ) 0 40) ≠ .ok "custom" := by
  have hres : set_bin_type "auto" (np_logspace (-4 : ℝ) 0 40) = .ok "auto" := by
    rw [set_bin_type_auto_eq _ (by rw [np_logspace_m4_0_40_length]; norm_num)]
    rw [np_logspace_m4_0_40_length, np_logspace_m4_0_40_getD_0, np_logspace_m4_0_40_getLastD]
    rw [np_allclose_logspace_false]
    simp
  refine ⟨hres, ?_⟩
  rw [hres]
  simp

/-- C2 (amended): with `bin_type='auto'`, the resolved type is `lin` exactly
when the first-dimension edges are `np.allclose` (`rtol=1e-5`, `atol=1e-8`,
combined as `|a-b| <= atol + rtol*|b|`) to the evenly spaced sequence from
first to last edge with the same count; otherwise the stored bin type is
left as `auto` (never set to `custom`).  In particular `linspace(1, 100, 11)`
resolves to `lin` and `logspace(-4, 0, 40)` (over ℝ) fails the tolerance and
remains `auto`. -/
theorem C2_bin_type_auto_resolution :
    (∀ edges0 : List ℚ, edges0.length ≠ 0 →
      ((set_bin_type "auto" edges0 = .ok "lin" ↔
        np_allclose (1 / 100000 : ℚ) (1 / 100000000 : ℚ) edges0
          (np_linspace (edges0.getD 0 0) (edges0.getLastD 0) edges0.length) = true) ∧
       (set_bin_type "auto" edges0 = .ok "auto" ↔
        np_allclose (1 / 100000 : ℚ) (1 / 100000000 : ℚ) edges0
          (np_linspace (edges0.getD 0 0) (edges0.getLastD 0) edges0.length) = false))) ∧
    set_bin_type "auto" (np_linspace (1 : ℚ) 100 11) = .ok "lin" ∧
    set_bin_type "auto" (np_logspace (-4 : ℝ) 0 40) = .ok "auto" := by
  refine ⟨?_, ?_, ?_⟩
  · intro edges0 h
    rw [set_bin_type_auto_eq _ h]
    by_cases hb : np_allclose (1 / 100000 : ℚ) (1 / 100000000 : ℚ) edges0
        (np_linspace (edges0.getD 0 0) (edges0.getLastD 0) edges0.length) = true
    · rw [if_pos hb]
      refine ⟨⟨fun _ => hb, fun _ => rfl⟩, fun hc => ?_, fun hf => ?_⟩
      · exact absurd hc (by simp)
      · exact absurd (hb.symm.trans hf) (by simp)
    · rw [if_neg hb]
      have hb' : np_allclose (1 / 100000 : ℚ) (1 / 100000000 : ℚ) edges0
          (np_linspace (edges0.getD 0 0) (edges0.getLastD 0) edges0.length) = false := by
        simpa using hb
      refine ⟨⟨fun hc => ?_, fun ht => ?_⟩, fun _ => hb', fun _ => rfl⟩
      · exact absurd hc (by simp)
      · exact absurd (hb'.symm.trans ht) (by simp)
  · have hlen : (np_linspace (1 : ℚ) 100 11).length = 11 := by simp [np_linspace]
    have h0 : (np_linspace (1 : ℚ) 100 11).getD 0 0 = 1 := by
      rw [np_linspace, getD_map_range]
      · norm_num
      · norm_num
    have hlast : (np_linspace (1 : ℚ) 100 11).getLastD 0 = 100 := by
      rw [np_linspace, getLastD_map_range _ (by norm_num)]
      push_cast
      norm_num
    rw [set_bin_type_auto_eq _ (by rw [hlen]; norm_num)]
    rw [hlen, h0, hlast]
    rw [if_pos (np_allclose_self (by norm_num) (by norm_num) _)]
  · rw [set_bin_type_auto_eq _ (by rw [np_logspace_m4_0_40_length]; norm_num)]
    rw [np_logspace_m4_0_40_length, np_logspace_m4_0_40_getD_0, np_logspace_m4_0_40_getLastD]
    rw [np_allclose_logspace_false]
    simp

/-- C2 witness: the resolution criterion instantiated at the concrete edges
`[0, 1]`. -/
theorem C2_bin_type_auto_resolution_witness :
    ((set_bin_type "auto" ([0, 1] : List ℚ) = .ok "lin" ↔
      np_allclose (1 / 100000 : ℚ) (1 / 100000000 : ℚ) ([0, 1] : List ℚ)
        (np_linspace (([0, 1] : List ℚ).getD 0 0) (([0, 1] : List ℚ).getLastD 0)
          ([0, 1] : List ℚ).length) = true) ∧
     (set_bin_type "auto" ([0, 1] : List ℚ) = .ok "auto" ↔
      np_allclose (1 / 100000 : ℚ) (1 / 100000000 : ℚ) ([0, 1] : List ℚ)
        (np_linspace (([0, 1] : List ℚ).getD 0 0) (([0, 1] : List ℚ).getLastD 0)
          ([0, 1] : List ℚ).length) = false)) :=
  C2_bin_type_auto_resolution.1 [0, 1] (by simp)

end Pycorr
